import Mathlib

/-!
Verification of the JSF decoder parameter-analysis pipeline.

JavaScript strings are modelled as lists of characters (`Str`); the
string-library operations used by the source (`split`, `indexOf`,
`startsWith`, `endsWith`, `includes`, `join`) are given as executable
functions on `Str`.  Each TypeScript module of the repository is embedded
in a namespace of the same name, and each exported function keeps its
source name where the identifier is usable here.
-/

set_option maxRecDepth 20000
set_option autoImplicit false

/-- A JavaScript string, as its sequence of UTF-16-ish characters. -/
abbrev Str := List Char

/-- Coerce a Lean string literal to the `Str` model. -/
def str (s : String) : Str := s.toList

/-- `s.split(sep)` for a one-character separator, as in JavaScript:
the empty string yields `[""]`, adjacent separators yield empty tokens. -/
def splitOnChar (sep : Char) : Str → List Str
  | [] => [[]]
  | c :: rest =>
    let r := splitOnChar sep rest
    if c = sep then [] :: r
    else
      match r with
      | h :: t => (c :: h) :: t
      | [] => [[c]]

/-- `parts.join(sep)` for a one-character separator. -/
def joinWithChar (sep : Char) : List Str → Str
  | [] => []
  | [x] => x
  | x :: y :: t => x ++ sep :: joinWithChar sep (y :: t)

/-- `haystack.includes(needle)` on the string model. -/
def hasSubstr (pat : Str) : Str → Bool
  | [] => pat.isEmpty
  | c :: t => pat.isPrefixOf (c :: t) || hasSubstr pat t

/-- `haystack.indexOf(needle)` on the string model (`none` for `-1`). -/
def idxOfSubstr (pat : Str) : Str → Option Nat
  | [] => if pat.isEmpty then some 0 else none
  | c :: t =>
    if pat.isPrefixOf (c :: t) then some 0
    else (idxOfSubstr pat t).map (· + 1)

/-- `types.ts` — the category of a parsed parameter. -/
inductive ParameterCategory where
  | standardJsf
  | componentId
  | viewstate
  | formSubmit
  | custom
deriving DecidableEq

/-- `types.ts` — `ParsedParameter`: one decoded form field. -/
structure ParsedParameter where
  name : Str
  decodedName : Str
  value : Str
  decodedValue : Str
deriving DecidableEq

/-- `types.ts` — the `type` of one component-ID hierarchy level. -/
inductive LevelType where
  | component
  | index
  | unknown
deriving DecidableEq

/-- `types.ts` — `ComponentIdLevel`. -/
structure ComponentIdLevel where
  id : Str
  type : LevelType
  depth : Nat
deriving DecidableEq

/-- `types.ts` — an `AnnotatedParameter` (the `annotation` field of the
source is called `annot` here). -/
structure AnnotatedParameter extends ParsedParameter where
  annot : Str
deriving DecidableEq

/-- `types.ts` — `ComponentIdParameter`. -/
structure ComponentIdParameter extends ParsedParameter where
  hierarchy : List ComponentIdLevel
deriving DecidableEq

/-- `types.ts` — ViewState encoding classification. -/
inductive Encoding where
  | base64
  | encrypted
  | unknown
deriving DecidableEq

/-- `types.ts` — `ViewStateParameter`. -/
structure ViewStateParameter extends ParsedParameter where
  encoding : Encoding
  decodedContent : Option Str
  warnings : List Str
deriving DecidableEq

/-- `types.ts` — `ViewStateAnalysis`. -/
structure ViewStateAnalysis where
  encoding : Encoding
  decodedContent : Option Str
  isSerializedJava : Bool
  warnings : List Str
deriving DecidableEq

/-- `types.ts` — `CategorizedParameters`. -/
structure CategorizedParameters where
  standardJsf : List AnnotatedParameter
  componentIds : List ComponentIdParameter
  viewState : Option ViewStateParameter
  formSubmit : List AnnotatedParameter
  custom : List ParsedParameter
deriving DecidableEq

/-- `types.ts` — `ParseResult` of the body parser. -/
structure ParseResult where
  parameters : List ParsedParameter
  rawBody : Str
deriving DecidableEq

/-- `types.ts` — detection confidence. -/
inductive Confidence where
  | high
  | medium
  | low
deriving DecidableEq

/-- `types.ts` — `JsfDetectionResult`. -/
structure JsfDetectionResult where
  isJsf : Bool
  confidence : Confidence
  indicators : List Str
deriving DecidableEq

namespace ComponentId

/-- The regex `^\d+$` of `componentId.ts`: one or more ASCII digits. -/
def matchesAllDigits (s : Str) : Bool :=
  !s.isEmpty && s.all Char.isDigit

/-- One level of `parseComponentId`: the body of the `parts.map` callback
in `componentId.ts`. -/
def levelOf (index : Nat) (part : Str) : ComponentIdLevel :=
  let isNumeric := matchesAllDigits part
  { id := part
    type := if isNumeric then .index else if !part.isEmpty then .component else .unknown
    depth := index }

/-- `parts.map((part, index) => ...)` with explicit running index. -/
def levelsFrom (k : Nat) : List Str → List ComponentIdLevel
  | [] => []
  | p :: ps => levelOf k p :: levelsFrom (k + 1) ps

/-- `componentId.ts` — `parseComponentId`. -/
def parseComponentId (id : Str) : List ComponentIdLevel :=
  if id.isEmpty then []
  else levelsFrom 0 (splitOnChar (':') id)

/-- `componentId.ts` — `formatComponentIdTree`. -/
def formatComponentIdTree (levels : List ComponentIdLevel) : Str :=
  if levels.isEmpty then []
  else joinWithChar (':') (levels.map (·.id))

end ComponentId

namespace Decoder

/-- Value of one hexadecimal digit, `none` for a non-hex character. -/
def hexVal (c : Char) : Option Nat :=
  if ('0') ≤ c ∧ c ≤ ('9') then some (c.toNat - ('0').toNat)
  else if ('a') ≤ c ∧ c ≤ ('f') then some (c.toNat - ('a').toNat + 10)
  else if ('A') ≤ c ∧ c ≤ ('F') then some (c.toNat - ('A').toNat + 10)
  else none

/-- First phase of `decodeURIComponent`: each `%XX` escape becomes a byte
(`Sum.inr`), every other character stays literal (`Sum.inl`); a `%` not
followed by two hex digits is a decoding error. -/
def pctTokens : Str → Option (List (Char ⊕ Nat))
  | [] => some []
  | ('%') :: rest =>
    match rest with
    | h1 :: h2 :: rest2 =>
      match hexVal h1, hexVal h2 with
      | some v1, some v2 => (pctTokens rest2).map (Sum.inr (v1 * 16 + v2) :: ·)
      | _, _ => none
    | _ => none
  | c :: rest => (pctTokens rest).map (Sum.inl c :: ·)

/-- A UTF-8 continuation byte. -/
def contByte (b : Nat) : Bool := 0x80 ≤ b && b ≤ 0xBF

/-- Second phase of `decodeURIComponent`: escape bytes must form valid
UTF-8 scalar sequences (no overlong forms, no surrogates, at most
U+10FFFF); literal characters pass through.  Any violation is a decoding
error, as `decodeURIComponent` throws `URIError`. -/
def utf8Items : List (Char ⊕ Nat) → Option Str
  | [] => some []
  | Sum.inl c :: rest => (utf8Items rest).map (c :: ·)
  | Sum.inr b :: rest =>
    if b < 0x80 then (utf8Items rest).map (Char.ofNat b :: ·)
    else if 0xC2 ≤ b ∧ b ≤ 0xDF then
      match rest with
      | Sum.inr b2 :: rest2 =>
        if contByte b2 then
          (utf8Items rest2).map (Char.ofNat ((b - 0xC0) * 0x40 + (b2 - 0x80)) :: ·)
        else none
      | _ => none
    else if 0xE0 ≤ b ∧ b ≤ 0xEF then
      match rest with
      | Sum.inr b2 :: Sum.inr b3 :: rest2 =>
        if ((if b = 0xE0 then 0xA0 else 0x80) ≤ b2 ∧
              b2 ≤ (if b = 0xED then 0x9F else 0xBF)) ∧ contByte b3 = true then
          (utf8Items rest2).map
            (Char.ofNat ((b - 0xE0) * 0x1000 + (b2 - 0x80) * 0x40 + (b3 - 0x80)) :: ·)
        else none
      | _ => none
    else if 0xF0 ≤ b ∧ b ≤ 0xF4 then
      match rest with
      | Sum.inr b2 :: Sum.inr b3 :: Sum.inr b4 :: rest2 =>
        if ((if b = 0xF0 then 0x90 else 0x80) ≤ b2 ∧
              b2 ≤ (if b = 0xF4 then 0x8F else 0xBF)) ∧
            contByte b3 = true ∧ contByte b4 = true then
          (utf8Items rest2).map
            (Char.ofNat ((b - 0xF0) * 0x40000 + (b2 - 0x80) * 0x1000 +
              (b3 - 0x80) * 0x40 + (b4 - 0x80)) :: ·)
        else none
      | _ => none
    else none

/-- `decodeURIComponent`, returning `none` where JavaScript throws. -/
def decodeURIComponentOpt (s : Str) : Option Str :=
  (pctTokens s).bind utf8Items

/-- `decoder.ts` — `decodeParameter`: decode once, and return the input
unchanged when decoding fails. -/
def decodeParameter (encoded : Str) : Str :=
  if encoded.isEmpty then []
  else
    match decodeURIComponentOpt encoded with
    | some d => d
    | none => encoded

end Decoder

namespace Parser

/-- `parser.ts` — `extractBodyFromRaw`. -/
def extractBodyFromRaw (raw : Str) : Str :=
  if raw.isEmpty then []
  else
    match idxOfSubstr (str "\r\n\r\n") raw with
    | some i => raw.drop (i + 4)
    | none =>
      match idxOfSubstr (str "\n\n") raw with
      | some i => raw.drop (i + 2)
      | none => []

/-- The per-segment body of the `parseUrlEncodedBody` loop in `parser.ts`:
split at the first `=`, decode name and value once each. -/
def pairOfSegment (pair : Str) : ParsedParameter :=
  match pair.findIdx? (· = ('=')) with
  | none =>
    { name := pair
      decodedName := Decoder.decodeParameter pair
      value := []
      decodedValue := Decoder.decodeParameter [] }
  | some i =>
    { name := pair.take i
      decodedName := Decoder.decodeParameter (pair.take i)
      value := pair.drop (i + 1)
      decodedValue := Decoder.decodeParameter (pair.drop (i + 1)) }

/-- The `for (const pair of pairs)` loop of `parseUrlEncodedBody`:
empty segments are skipped (`if (!pair) continue`), every other segment
is pushed onto the accumulator in order. -/
def parseLoop : List Str → List ParsedParameter → List ParsedParameter
  | [], acc => acc
  | pair :: rest, acc =>
    if pair.isEmpty then parseLoop rest acc
    else parseLoop rest (acc ++ [pairOfSegment pair])

/-- `parser.ts` — `parseUrlEncodedBody`. -/
def parseUrlEncodedBody (body : Str) : List ParsedParameter :=
  if body.isEmpty then []
  else parseLoop (splitOnChar ('&') body) []

/-- `parser.ts` — `parseJsfBody`. -/
def parseJsfBody (body : Str) : ParseResult :=
  if body.isEmpty then { parameters := [], rawBody := [] }
  else
    let actualBody :=
      if hasSubstr (str "\r\n\r\n") body || hasSubstr (str "\n\n") body then
        extractBodyFromRaw body
      else body
    { parameters := parseUrlEncodedBody actualBody, rawBody := actualBody }

end Parser

namespace Annotations

/-- `annotations.ts` — `JSF_ANNOTATIONS`, as an association list in the
object-literal insertion order (apostrophes escaped). -/
def JSF_ANNOTATIONS : List (Str × Str) := [
  (str "javax.faces.partial.ajax",
    str "Indicates AJAX partial request - When \x27true\x27, only specified components are processed and rendered"),
  (str "javax.faces.source",
    str "Component that triggered the request - Client ID of the component that initiated the AJAX request"),
  (str "javax.faces.partial.execute",
    str "Components to process on server - Space-separated list of component IDs to execute during Apply Request Values, Process Validations, and Update Model phases"),
  (str "javax.faces.partial.render",
    str "Components to re-render on client - Space-separated list of component IDs whose markup should be returned in the response"),
  (str "javax.faces.behavior.event",
    str "Client behavior event type - The name of the behavior event that triggered this request (e.g., \x27action\x27, \x27valueChange\x27, \x27click\x27)"),
  (str "javax.faces.partial.event",
    str "Partial request event type - The DOM event that triggered the partial request (e.g., \x27click\x27, \x27change\x27, \x27blur\x27)"),
  (str "javax.faces.ViewState",
    str "Serialized server-side state - Contains the component tree state, can be stateful (server-side) or stateless (client-side encrypted)"),
  (str "javax.faces.FormSignature",
    str "Form signature for CSRF protection - Cryptographic signature to prevent Cross-Site Request Forgery attacks"),
  (str "javax.faces.ClientWindow",
    str "Client window identifier - Tracks browser tabs/windows for multi-window support in JSF 2.2+"),
  (str "javax.faces.encodedURL",
    str "Encoded URL for navigation - URL with view parameters and conversation state encoded"),
  (str "javax.faces.resource",
    str "Resource identifier - Identifies a JSF resource (CSS, JS, images) to be served by the ResourceHandler"),
  (str "ln",
    str "Resource library name - Groups related resources together (e.g., \x27primefaces\x27, \x27css\x27, \x27js\x27)"),
  (str "v",
    str "Resource version - Version number for cache busting and resource versioning"),
  (str "javax.faces.validator.REQUIRED",
    str "Required field validation - Indicates a required field validation message"),
  (str "javax.faces.converter.STRING",
    str "String converter - Converts between String and Object representations"),
  (str "javax.faces.converter.DateTimeConverter.PATTERN",
    str "Date/time pattern - Format pattern for date/time conversion"),
  (str "jffi",
    str "Faces Flow instance identifier - Tracks the current Faces Flow instance (JSF 2.2+)"),
  (str "jffi.token",
    str "Flow token - Security token for Faces Flow transitions"),
  (str "cid",
    str "Conversation ID - CDI conversation identifier for stateful conversations"),
  (str "primefaces.resetvalues",
    str "PrimeFaces reset values - Resets input components to their initial values"),
  (str "primefaces.ignoreautoupdate",
    str "PrimeFaces ignore auto-update - Prevents automatic update of components")]

/-- `annotations.ts` — `SUBMIT_ANNOTATION` (shortened identifier). -/
def SUBMIT_ANNOT : Str :=
  str "Form submission marker - Indicates which form was submitted"

/-- `annotations.ts` — `IMPLEMENTATION_INDICATORS`, in insertion order. -/
def IMPLEMENTATION_INDICATORS : List (Str × Str) := [
  (str "com.sun.faces", str "Mojarra (Oracle/Sun JSF Reference Implementation)"),
  (str "org.apache.myfaces", str "Apache MyFaces"),
  (str "org.primefaces", str "PrimeFaces Component Library"),
  (str "org.richfaces", str "RichFaces Component Library"),
  (str "org.icefaces", str "ICEfaces Component Library")]

/-- `annotations.ts` — `getAnnotation` (shortened identifier): exact-key
lookup in `JSF_ANNOTATIONS`. -/
def getAnnot (paramName : Str) : Option Str :=
  (JSF_ANNOTATIONS.find? (fun e => e.1 == paramName)).map (·.2)

/-- The inner loop of `detectImplementation`: first fingerprint whose key
occurs in the parameter name as a substring. -/
def implLookup (paramName : Str) : Option Str :=
  (IMPLEMENTATION_INDICATORS.find? (fun e => hasSubstr e.1 paramName)).map (·.2)

/-- `annotations.ts` — `detectImplementation`: scan names in order and
return the first implementation fingerprint hit. -/
def detectImplementation : List Str → Option Str
  | [] => none
  | n :: rest =>
    match implLookup n with
    | some v => some v
    | none => detectImplementation rest

end Annotations

namespace Detector

/-- `detector.ts` — `STANDARD_JSF_PARAMS` (declared in the source and
used by the spec as the canonical parameter-name list). -/
def STANDARD_JSF_PARAMS : List Str := [
  str "javax.faces.partial.ajax",
  str "javax.faces.source",
  str "javax.faces.partial.execute",
  str "javax.faces.partial.render",
  str "javax.faces.behavior.event",
  str "javax.faces.partial.event",
  str "javax.faces.ViewState",
  str "javax.faces.ClientWindow",
  str "javax.faces.FormSignature"]

/-- `detector.ts` — `VERSION_INDICATORS`, in insertion order. -/
def VERSION_INDICATORS : List (Str × Str) := [
  (str "javax.faces.ClientWindow", str "JSF 2.2+ (Multi-window support)"),
  (str "javax.faces.FormSignature", str "JSF 2.2+ (CSRF protection)"),
  (str "jffi", str "JSF 2.2+ (Faces Flow)"),
  (str "javax.faces.partial.ajax", str "JSF 2.0+ (AJAX support)"),
  (str "javax.faces.ViewState", str "JSF 1.0+ (Core framework)")]

/-- The mutable locals of the `detectJsf` parameter loop. -/
structure DetState where
  indicators : List Str
  hasStandardJsf : Bool
  hasAjax : Bool
  hasViewState : Bool
  versionFeatures : List Str
deriving DecidableEq

/-- The `VERSION_INDICATORS` scan for one decoded name over an explicit
table suffix: push each not yet collected matching version label. -/
def versionFold (n : Str) : List (Str × Str) → List Str → List Str
  | [], vf => vf
  | e :: es, vf =>
    versionFold n es (if n == e.1 && !(vf.contains e.2) then vf ++ [e.2] else vf)

/-- The `VERSION_INDICATORS` scan for one decoded name. -/
def versionScan (n : Str) (vf : List Str) : List Str :=
  versionFold n VERSION_INDICATORS vf

/-- The strong-signal condition of the `detectJsf` loop: the decoded name
has the `javax.faces.` namespace prefix. -/
def prefB (p : ParsedParameter) : Bool :=
  (str "javax.faces.").isPrefixOf p.decodedName

/-- The submit-marker condition of the `detectJsf` loop: the decoded name
ends with `_SUBMIT`. -/
def subB (p : ParsedParameter) : Bool :=
  (str "_SUBMIT").isSuffixOf p.decodedName

/-- The implementation-fingerprint condition: some fingerprint substring
occurs in the decoded name. -/
def implB (p : ParsedParameter) : Bool :=
  (Annotations.implLookup p.decodedName).isSome

/-- The version-indicator condition: the decoded name equals some
`VERSION_INDICATORS` key. -/
def verB (p : ParsedParameter) : Bool :=
  VERSION_INDICATORS.any (fun e => p.decodedName == e.1)

/-- Any condition under which the `detectJsf` loop or its tail emits an
indicator for a parameter. -/
def detB (p : ParsedParameter) : Bool :=
  prefB p || subB p || implB p || verB p

/-- One iteration of the `detectJsf` parameter loop. -/
def detStep (st : DetState) (p : ParsedParameter) : DetState :=
  let n := p.decodedName
  let st1 :=
    if prefB p then
      { st with
        hasStandardJsf := true
        indicators := st.indicators ++ [str "Standard JSF parameter: " ++ n]
        hasAjax := if n == str "javax.faces.partial.ajax" then true else st.hasAjax
        hasViewState := if n == str "javax.faces.ViewState" then true else st.hasViewState }
    else st
  let st2 :=
    if subB p then
      { st1 with indicators := st1.indicators ++ [str "Form submission marker: " ++ n] }
    else st1
  { st2 with versionFeatures := versionScan n st2.versionFeatures }

/-- The `for (const param of parameters)` loop of `detectJsf`. -/
def detLoop : List ParsedParameter → DetState → DetState
  | [], st => st
  | p :: ps, st => detLoop ps (detStep st p)

/-- The negative detection result of `detectJsf`. -/
def negativeResult : JsfDetectionResult :=
  { isJsf := false, confidence := .low, indicators := [] }

/-- The tail of `detectJsf` after the parameter loop: implementation,
version, request-type indicators, then verdict and confidence. -/
def detFinish (parameters : List ParsedParameter) : JsfDetectionResult :=
  let st := detLoop parameters ⟨[], false, false, false, []⟩
  let ind1 :=
    match Annotations.detectImplementation (parameters.map (·.decodedName)) with
    | some impl => st.indicators ++ [str "Implementation: " ++ impl]
    | none => st.indicators
  let ind2 :=
    if !st.versionFeatures.isEmpty then
      ind1 ++ [str "Version features: " ++ List.intercalate (str ", ") st.versionFeatures]
    else ind1
  let ind3 :=
    if st.hasAjax then ind2 ++ [str "Request type: AJAX Partial Request"]
    else if st.hasViewState then ind2 ++ [str "Request type: Full Page Postback"]
    else ind2
  let isJsf := decide (0 < ind3.length)
  { isJsf := isJsf
    confidence :=
      if isJsf then (if st.hasStandardJsf then Confidence.high else .medium)
      else .low
    indicators := ind3 }

/-- `detector.ts` — `detectJsf`. -/
def detectJsf (raw : Str) : JsfDetectionResult :=
  if raw.isEmpty then negativeResult
  else
    let parameters := (Parser.parseJsfBody raw).parameters
    if parameters.isEmpty then negativeResult
    else detFinish parameters

/-- `detector.ts` — `isJsfRequest`. -/
def isJsfRequest (raw : Str) : Bool :=
  (detectJsf raw).isJsf

end Detector

namespace Viewstate

/-- The standard base64 alphabet value of a character. -/
def b64Val (c : Char) : Option Nat :=
  if ('A') ≤ c ∧ c ≤ ('Z') then some (c.toNat - ('A').toNat)
  else if ('a') ≤ c ∧ c ≤ ('z') then some (c.toNat - ('a').toNat + 26)
  else if ('0') ≤ c ∧ c ≤ ('9') then some (c.toNat - ('0').toNat + 52)
  else if c = ('+') then some 62
  else if c = ('/') then some 63
  else none

/-- ASCII whitespace ignored by `atob` (forgiving-base64 decode). -/
def isAsciiWs (c : Char) : Bool :=
  c = (' ') || c = (Char.ofNat 9) || c = (Char.ofNat 10) ||
    c = (Char.ofNat 12) || c = (Char.ofNat 13)

/-- Turn groups of base64 sextets into bytes, discarding leftover bits of
a trailing group of two or three sextets as `atob` does. -/
def b64Quads : List Nat → List Nat
  | a :: b :: c :: d :: rest =>
    (a * 4 + b / 16) :: ((b % 16) * 16 + c / 4) :: ((c % 4) * 64 + d) :: b64Quads rest
  | [a, b, c] => [a * 4 + b / 16, (b % 16) * 16 + c / 4]
  | [a, b] => [a * 4 + b / 16]
  | [_] => []
  | [] => []

/-- Sequence a list of optional sextets, failing on any invalid one. -/
def seqOpts : List (Option Nat) → Option (List Nat)
  | [] => some []
  | none :: _ => none
  | some v :: rest => (seqOpts rest).map (v :: ·)

/-- Strip up to two trailing padding characters when the length is a
multiple of four, as `atob` does. -/
def stripPad (s : Str) : Str :=
  if s.length % 4 = 0 then
    if (str "==").isSuffixOf s then s.take (s.length - 2)
    else if (str "=").isSuffixOf s then s.take (s.length - 1)
    else s
  else s

/-- `atob`, returning the decoded bytes, `none` where JavaScript throws
`InvalidCharacterError`. -/
def atob (s : Str) : Option (List Nat) :=
  let t := stripPad (s.filter (fun c => !isAsciiWs c))
  if t.length % 4 = 1 then none
  else (seqOpts (t.map b64Val)).map b64Quads

/-- A character allowed in the body of the base64 regex of
`viewstate.ts` (`[A-Za-z0-9+/]`). -/
def b64BodyChar (c : Char) : Bool :=
  decide ((('A') ≤ c ∧ c ≤ ('Z')) ∨ (('a') ≤ c ∧ c ≤ ('z')) ∨
    (('0') ≤ c ∧ c ≤ ('9')) ∨ c = ('+') ∨ c = ('/'))

/-- The regex `^[A-Za-z0-9+/]*={0,2}$` of `viewstate.ts`. -/
def base64Shape (value : Str) : Bool :=
  let body := value.takeWhile b64BodyChar
  let rest := value.drop body.length
  rest.all (fun c => c = ('=')) && decide (rest.length ≤ 2)

/-- `viewstate.ts` — `isBase64`: regex shape, length multiple of four,
and an actual decode producing at least one byte. -/
def isBase64 (value : Str) : Bool :=
  if value.isEmpty then false
  else if !base64Shape value then false
  else if value.length % 4 ≠ 0 then false
  else
    match atob value with
    | some decoded => decide (decoded.length > 0)
    | none => false

/-- `viewstate.ts` — `detectSerializedJava`: the decoded bytes start with
the Java serialization magic `0xAC 0xED`. -/
def detectSerializedJava (decoded : List Nat) : Bool :=
  match decoded with
  | b0 :: b1 :: _ => (b0 == 0xac) && (b1 == 0xed)
  | _ => false

/-- `viewstate.ts` — `analyzeViewState`. -/
def analyzeViewState (value : Str) : ViewStateAnalysis :=
  if value.isEmpty then
    { encoding := .unknown, decodedContent := none, isSerializedJava := false,
      warnings := [str "ViewState value is empty or invalid"] }
  else if isBase64 value then
    match atob value with
    | some bytes =>
      if detectSerializedJava bytes then
        { encoding := .base64, decodedContent := some (bytes.map Char.ofNat),
          isSerializedJava := true,
          warnings :=
            [str "ViewState contains serialized Java object - potential deserialization vulnerability"] }
      else
        { encoding := .base64, decodedContent := some (bytes.map Char.ofNat),
          isSerializedJava := false, warnings := [] }
    | none =>
      { encoding := .base64, decodedContent := none, isSerializedJava := false,
        warnings := [str "Failed to decode Base64 ViewState"] }
  else
    { encoding := .encrypted, decodedContent := none, isSerializedJava := false,
      warnings :=
        [str "ViewState is not Base64 encoded - likely encrypted or using custom encoding"] }

end Viewstate

namespace Categorizer

/-- `categorizer.ts` — the local placeholder `parseComponentId`
(its comment reads: implemented in task 5.1, for now return a simple
structure). -/
def parseComponentId (id : Str) : List ComponentIdLevel :=
  [{ id := id, type := .unknown, depth := 0 }]

/-- `categorizer.ts` — the local placeholder `analyzeViewState`
(its comment reads: implemented in task 6.1, for now return a basic
structure). -/
def analyzeViewState (_value : Str) : ViewStateAnalysis :=
  { encoding := .unknown, decodedContent := none, isSerializedJava := false,
    warnings := [] }

/-- `categorizer.ts` — `isStandardJsfParameter`. -/
def isStandardJsfParameter (name : Str) : Bool :=
  (str "javax.faces.").isPrefixOf name

/-- `categorizer.ts` — `isComponentIdParameter`. -/
def isComponentIdParameter (name : Str) : Bool :=
  hasSubstr (str "j_id_") name

/-- `categorizer.ts` — `isFormSubmitParameter`. -/
def isFormSubmitParameter (name : Str) : Bool :=
  (str "_SUBMIT").isSuffixOf name

/-- `categorizer.ts` — `isViewStateParameter`. -/
def isViewStateParameter (name : Str) : Bool :=
  name == str "javax.faces.ViewState"

/-- The tagged result of `categorizeParameter` (the source returns a
record with a `category` tag; a sum type makes the tag explicit). -/
inductive Categorized where
  | standardJsf (p : AnnotatedParameter)
  | componentId (p : ComponentIdParameter)
  | viewstate (p : ViewStateParameter)
  | formSubmit (p : AnnotatedParameter)
  | custom (p : ParsedParameter)
deriving DecidableEq

/-- `categorizer.ts` — `categorizeParameter`: first matching rule wins,
in the source order ViewState, standard, component-id, form-submit,
custom. -/
def categorizeParameter (param : ParsedParameter) : Categorized :=
  if isViewStateParameter param.decodedName then
    let analysis := analyzeViewState param.decodedValue
    .viewstate ⟨param, analysis.encoding, analysis.decodedContent, analysis.warnings⟩
  else if isStandardJsfParameter param.decodedName then
    .standardJsf ⟨param, (Annotations.getAnnot param.decodedName).getD []⟩
  else if isComponentIdParameter param.decodedName then
    .componentId ⟨param, parseComponentId param.decodedName⟩
  else if isFormSubmitParameter param.decodedName then
    .formSubmit ⟨param, Annotations.SUBMIT_ANNOT⟩
  else
    .custom param

/-- The `switch` body of the `categorizeParameters` loop. -/
def catStep (result : CategorizedParameters) (param : ParsedParameter) :
    CategorizedParameters :=
  match categorizeParameter param with
  | .standardJsf q => { result with standardJsf := result.standardJsf ++ [q] }
  | .componentId q => { result with componentIds := result.componentIds ++ [q] }
  | .viewstate q => { result with viewState := some q }
  | .formSubmit q => { result with formSubmit := result.formSubmit ++ [q] }
  | .custom q => { result with custom := result.custom ++ [q] }

/-- The `for (const param of params)` loop of `categorizeParameters`. -/
def catLoop : List ParsedParameter → CategorizedParameters → CategorizedParameters
  | [], r => r
  | p :: ps, r => catLoop ps (catStep r p)

/-- `categorizer.ts` — `categorizeParameters`. -/
def categorizeParameters (params : List ParsedParameter) : CategorizedParameters :=
  catLoop params
    { standardJsf := [], componentIds := [], viewState := none,
      formSubmit := [], custom := [] }

/-- View-state rule of the categorizer, as a predicate. -/
def vsCond (p : ParsedParameter) : Bool :=
  isViewStateParameter p.decodedName

/-- Standard-framework rule: not view-state, and `javax.faces.` prefix. -/
def stdCond (p : ParsedParameter) : Bool :=
  !vsCond p && isStandardJsfParameter p.decodedName

/-- Component-id rule: none of the earlier rules, and `j_id_` infix. -/
def cidCond (p : ParsedParameter) : Bool :=
  !vsCond p && !isStandardJsfParameter p.decodedName &&
    isComponentIdParameter p.decodedName

/-- Form-submit rule: none of the earlier rules, and `_SUBMIT` suffix. -/
def fsCond (p : ParsedParameter) : Bool :=
  !vsCond p && !isStandardJsfParameter p.decodedName &&
    !isComponentIdParameter p.decodedName && isFormSubmitParameter p.decodedName

/-- Custom rule: none of the other four rules applies. -/
def custCond (p : ParsedParameter) : Bool :=
  !vsCond p && !isStandardJsfParameter p.decodedName &&
    !isComponentIdParameter p.decodedName && !isFormSubmitParameter p.decodedName

/-- The view-state record built by the categorizer for a parameter. -/
def mkViewState (p : ParsedParameter) : ViewStateParameter :=
  let analysis := analyzeViewState p.decodedValue
  ⟨p, analysis.encoding, analysis.decodedContent, analysis.warnings⟩

/-- The standard-framework record built by the categorizer. -/
def mkStandard (p : ParsedParameter) : AnnotatedParameter :=
  ⟨p, (Annotations.getAnnot p.decodedName).getD []⟩

/-- The component-id record built by the categorizer. -/
def mkComponentId (p : ParsedParameter) : ComponentIdParameter :=
  ⟨p, parseComponentId p.decodedName⟩

/-- The form-submit record built by the categorizer. -/
def mkFormSubmit (p : ParsedParameter) : AnnotatedParameter :=
  ⟨p, Annotations.SUBMIT_ANNOT⟩

end Categorizer

namespace ValueAnalyzer

/-- `valueAnalyzer.ts` — `ValueAnalysis`. -/
structure ValueAnalysis where
  type : Str
  explanation : Str
  details : Option (List Str)
  warning : Option Str
deriving DecidableEq

/-- `valueAnalyzer.ts` — its local `isBase64`
(regex `^[A-Za-z0-9+/]+=*$`, length at least 4 and a multiple of 4). -/
def isBase64 (s : Str) : Bool :=
  if s.isEmpty || decide (s.length < 4) then false
  else
    (!(s.takeWhile Viewstate.b64BodyChar).isEmpty &&
        (s.drop (s.takeWhile Viewstate.b64BodyChar).length).all (fun c => c = ('='))) &&
      s.length % 4 == 0

/-- Decimal digits of a natural number. -/
def natToStr (n : Nat) : Str := (toString n).toList

/-- `(len / 1024).toFixed(2)` of JavaScript: the division by the power of
two is exact in binary floating point, and `toFixed` rounds to the
nearest hundredth with ties upward, so the printed value is
`round(len * 100 / 1024)` hundredths. -/
def toFixed2KB (len : Nat) : Str :=
  let hundredths := (len * 100 * 2 + 1024) / 2048
  natToStr (hundredths / 100) ++ str "." ++
    (if hundredths % 100 < 10 then str "0" ++ natToStr (hundredths % 100)
     else natToStr (hundredths % 100))

/-- `valueAnalyzer.ts` — its local `analyzeViewState`: encoding details,
a size detail line, a short-state warning overridden by the large-size
performance warning above 10,000 characters. -/
def analyzeViewState (value : Str) : ValueAnalysis :=
  let branch :=
    if isBase64 value then
      if value.length > 100 then
        ([str "Encoding: Base64", str "Likely encrypted or compressed",
          str "Contains serialized component tree state"], (none : Option Str))
      else
        ([str "Encoding: Base64", str "Short ViewState - possibly stateless mode"],
          some (str "Short ViewState may indicate client-side state storage"))
    else if (str "stateless").isPrefixOf value then
      ([str "Stateless mode enabled", str "No server-side state stored",
        str "State is reconstructed on each request"], none)
    else
      ([str "Custom ViewState format"], none)
  let details := branch.1 ++
    [str "Size: " ++ natToStr value.length ++ str " bytes (" ++
      toFixed2KB value.length ++ str " KB)"]
  let warning :=
    if value.length > 10000 then
      some (str "Large ViewState detected - may impact performance and bandwidth")
    else branch.2
  { type := str "ViewState",
    explanation := str "Contains the serialized state of the JSF component tree",
    details := some details,
    warning := warning }

end ValueAnalyzer

/-! ### Theorems -/

theorem splitOnChar_ne_nil (sep : Char) (s : Str) : splitOnChar sep s ≠ [] := by
  induction s with
  | nil => simp [splitOnChar]
  | cons c rest ih =>
    simp only [splitOnChar]
    split
    · simp
    · match h : splitOnChar sep rest with
      | [] => exact absurd h ih
      | x :: xs => simp

theorem joinWithChar_splitOnChar (sep : Char) (s : Str) :
    joinWithChar sep (splitOnChar sep s) = s := by
  induction s with
  | nil => rfl
  | cons c rest ih =>
    simp only [splitOnChar]
    split
    · rename_i hc
      match h : splitOnChar sep rest with
      | [] => exact absurd h (splitOnChar_ne_nil sep rest)
      | x :: xs =>
        subst hc
        simpa [joinWithChar, h] using ih
    · match h : splitOnChar sep rest with
      | [] => exact absurd h (splitOnChar_ne_nil sep rest)
      | [x] =>
        simpa [joinWithChar, h] using ih
      | x :: y :: xs =>
        simpa [joinWithChar, h] using ih

namespace ComponentId

theorem levelsFrom_map_id (k : Nat) (parts : List Str) :
    (levelsFrom k parts).map (·.id) = parts := by
  induction parts generalizing k with
  | nil => rfl
  | cons p ps ih => simp [levelsFrom, levelOf, ih]

theorem levelsFrom_ne_nil (k : Nat) (parts : List Str) (h : parts ≠ []) :
    levelsFrom k parts ≠ [] := by
  cases parts with
  | nil => exact absurd rfl h
  | cons p ps => simp [levelsFrom]

theorem levelsFrom_length (k : Nat) (parts : List Str) :
    (levelsFrom k parts).length = parts.length := by
  induction parts generalizing k with
  | nil => rfl
  | cons p ps ih => simp [levelsFrom, ih]

theorem levelsFrom_get (k : Nat) (parts : List Str) (i : Nat)
    (h : i < (levelsFrom k parts).length) :
    (levelsFrom k parts).get ⟨i, h⟩ =
      levelOf (k + i) (parts.getD i []) := by
  induction parts generalizing k i with
  | nil => simp [levelsFrom] at h
  | cons p ps ih =>
    cases i with
    | zero => simp [levelsFrom]
    | succ j =>
      have hj : j < (levelsFrom (k + 1) ps).length := by
        simpa [levelsFrom] using h
      simpa [levelsFrom, Nat.add_assoc, Nat.add_comm 1 j] using ih (k + 1) j hj

end ComponentId


namespace ComponentId

theorem levelOf_id (k : Nat) (part : Str) : (levelOf k part).id = part := rfl

theorem levelOf_depth (k : Nat) (part : Str) : (levelOf k part).depth = k := rfl

theorem matchesAllDigits_ne_nil {part : Str} (h : matchesAllDigits part = true) :
    part ≠ [] := by
  intro hnil
  subst hnil
  simp [matchesAllDigits] at h

theorem levelOf_type_index (k : Nat) (part : Str) :
    (levelOf k part).type = .index ↔ matchesAllDigits part = true := by
  cases hm : matchesAllDigits part with
  | true => simp [levelOf, hm]
  | false =>
    cases hp : part.isEmpty with
    | true => simp [levelOf, hm, hp]
    | false => simp [levelOf, hm, hp]

theorem levelOf_type_unknown (k : Nat) (part : Str) :
    (levelOf k part).type = .unknown ↔ part = [] := by
  cases hm : matchesAllDigits part with
  | true =>
    have hne := matchesAllDigits_ne_nil hm
    simp [levelOf, hm, hne]
  | false =>
    cases hp : part.isEmpty with
    | true => simp [levelOf, hm, hp, List.isEmpty_iff.mp hp, matchesAllDigits]
    | false =>
      have : part ≠ [] := by
        intro hnil
        rw [hnil] at hp
        simp at hp
      simp [levelOf, hm, hp, this]

theorem levelOf_type_component (k : Nat) (part : Str) :
    (levelOf k part).type = .component ↔
      (part ≠ [] ∧ matchesAllDigits part = false) := by
  cases hm : matchesAllDigits part with
  | true =>
    simp [levelOf, hm]
  | false =>
    cases hp : part.isEmpty with
    | true => simp [levelOf, hm, hp, List.isEmpty_iff.mp hp, matchesAllDigits]
    | false =>
      have : part ≠ [] := by
        intro hnil
        rw [hnil] at hp
        simp at hp
      simp [levelOf, hm, hp, this]

theorem levelsFrom_getD (k : Nat) (parts : List Str) (i : Nat)
    (h : i < parts.length) (d : ComponentIdLevel) :
    (levelsFrom k parts).getD i d = levelOf (k + i) (parts.getD i []) := by
  induction parts generalizing k i with
  | nil => simp at h
  | cons p ps ih =>
    cases i with
    | zero => simp [levelsFrom]
    | succ j =>
      have hj : j < ps.length := by simpa using h
      simpa [levelsFrom, Nat.add_assoc, Nat.add_comm 1 j] using ih (k + 1) j hj

end ComponentId

/-- Claim C4: joining the tokens of the Component-ID Parser output with
a colon reproduces the original input exactly, for every input string
(including empty, leading/trailing/doubled colons). -/
theorem claim_C4_componentId_roundtrip (s : Str) :
    ComponentId.formatComponentIdTree (ComponentId.parseComponentId s) = s := by
  cases s with
  | nil => rfl
  | cons c t =>
    have h1 : splitOnChar (':') (c :: t) ≠ [] := splitOnChar_ne_nil _ _
    have h2 : ComponentId.levelsFrom 0 (splitOnChar (':') (c :: t)) ≠ [] :=
      ComponentId.levelsFrom_ne_nil _ _ h1
    simp [ComponentId.parseComponentId, ComponentId.formatComponentIdTree,
      List.isEmpty_iff, h2, ComponentId.levelsFrom_map_id, joinWithChar_splitOnChar]

/-- Claim C6: for every token of the colon-split of a component identifier,
the parser emits a level whose kind is `index` iff the token matches
`^\d+$` exactly, `unknown` iff the token is empty, `component` otherwise,
and whose `depth` is the token's zero-based position in the split result. -/
theorem claim_C6_level_classification (s : Str) :
    (s ≠ [] → (ComponentId.parseComponentId s).length = (splitOnChar (':') s).length) ∧
    (∀ i, i < (ComponentId.parseComponentId s).length →
      ((ComponentId.parseComponentId s).getD i ⟨[], .unknown, 0⟩).id
          = (splitOnChar (':') s).getD i [] ∧
      (((ComponentId.parseComponentId s).getD i ⟨[], .unknown, 0⟩).type = .index ↔
          ComponentId.matchesAllDigits ((splitOnChar (':') s).getD i []) = true) ∧
      (((ComponentId.parseComponentId s).getD i ⟨[], .unknown, 0⟩).type = .unknown ↔
          (splitOnChar (':') s).getD i [] = []) ∧
      (((ComponentId.parseComponentId s).getD i ⟨[], .unknown, 0⟩).type = .component ↔
          ((splitOnChar (':') s).getD i [] ≠ [] ∧
            ComponentId.matchesAllDigits ((splitOnChar (':') s).getD i []) = false)) ∧
      ((ComponentId.parseComponentId s).getD i ⟨[], .unknown, 0⟩).depth = i) := by
  cases s with
  | nil =>
    refine ⟨fun h => absurd rfl h, fun i hi => ?_⟩
    simp [ComponentId.parseComponentId] at hi
  | cons c t =>
    have hparse : ComponentId.parseComponentId (c :: t)
        = ComponentId.levelsFrom 0 (splitOnChar (':') (c :: t)) := by
      simp [ComponentId.parseComponentId]
    refine ⟨fun _ => ?_, fun i hi => ?_⟩
    · rw [hparse, ComponentId.levelsFrom_length]
    · rw [hparse] at hi ⊢
      rw [ComponentId.levelsFrom_length] at hi
      rw [ComponentId.levelsFrom_getD 0 _ i hi]
      simp only [Nat.zero_add]
      exact ⟨ComponentId.levelOf_id i _,
        ComponentId.levelOf_type_index i _,
        ComponentId.levelOf_type_unknown i _,
        ComponentId.levelOf_type_component i _,
        ComponentId.levelOf_depth i _⟩

/-- Witness for C6 at the spec scenario identifier, token position 2. -/
theorem claim_C6_witness :
    (str "j_id_3x:j_id_40:0:j_id_42") ≠ [] ∧
    ((ComponentId.parseComponentId (str "j_id_3x:j_id_40:0:j_id_42")).getD 2
        ⟨[], .unknown, 0⟩).type = .index ∧
    ((ComponentId.parseComponentId (str "j_id_3x:j_id_40:0:j_id_42")).getD 2
        ⟨[], .unknown, 0⟩).depth = 2 :=
  ⟨by decide,
    ((claim_C6_level_classification (str "j_id_3x:j_id_40:0:j_id_42")).2 2
        (by decide)).2.1.mpr (by decide),
    ((claim_C6_level_classification (str "j_id_3x:j_id_40:0:j_id_42")).2 2
        (by decide)).2.2.2.2⟩

theorem findIdxEq_some_split {α : Type} (p : α → Bool) (l : List α) (i : Nat)
    (h : l.findIdx? p = some i) :
    ∃ a, p a = true ∧ (∀ x ∈ l.take i, p x = false) ∧
      l = l.take i ++ a :: l.drop (i + 1) := by
  induction l generalizing i with
  | nil => simp [List.findIdx?_nil] at h
  | cons x xs ih =>
    rw [List.findIdx?_cons] at h
    by_cases hp : p x = true
    · rw [if_pos hp] at h
      injection h with h
      subst h
      exact ⟨x, hp, by simp, by simp⟩
    · rw [if_neg hp, List.findIdx?_succ] at h
      match hfind : xs.findIdx? p with
      | none =>
        rw [hfind] at h
        exact Option.noConfusion h
      | some j =>
        rw [hfind] at h
        have h' : j + 1 = i := by simpa using h
        subst h'
        obtain ⟨a, ha, hpre, hsplit⟩ := ih j hfind
        refine ⟨a, ha, ?_, ?_⟩
        · intro y hy
          simp only [List.take_succ_cons] at hy
          rcases List.mem_cons.mp hy with rfl | hy
          · simpa using hp
          · exact hpre y hy
        · simpa [List.take_succ_cons, List.drop_succ_cons] using congrArg (x :: ·) hsplit

theorem parseLoop_eq_filter_map (l : List Str) (init : List ParsedParameter) :
    Parser.parseLoop l init
      = init ++ (l.filter (fun seg => !seg.isEmpty)).map Parser.pairOfSegment := by
  induction l generalizing init with
  | nil => simp [Parser.parseLoop]
  | cons x xs ih =>
    cases hx : x.isEmpty with
    | true => simp [Parser.parseLoop, hx, List.filter_cons, ih]
    | false => simp [Parser.parseLoop, hx, List.filter_cons, ih]

theorem pairOfSegment_name_value (seg : Str) :
    (('=') ∉ (Parser.pairOfSegment seg).name) ∧
    (((Parser.pairOfSegment seg).name = seg ∧ (Parser.pairOfSegment seg).value = []) ∨
      seg = (Parser.pairOfSegment seg).name ++ ('=') :: (Parser.pairOfSegment seg).value) := by
  match h : seg.findIdx? (· = ('=')) with
  | none =>
    have hall := List.findIdx?_eq_none_iff.mp h
    refine ⟨?_, Or.inl ⟨?_, ?_⟩⟩
    · intro hmem
      have hname : (Parser.pairOfSegment seg).name = seg := by
        simp [Parser.pairOfSegment, h]
      rw [hname] at hmem
      have := hall _ hmem
      simp at this
    · simp [Parser.pairOfSegment, h]
    · simp [Parser.pairOfSegment, h]
  | some i =>
    obtain ⟨a, hpa, hpre, hsplit⟩ := findIdxEq_some_split _ seg i h
    have ha : a = ('=') := by simpa using hpa
    subst ha
    have hname : (Parser.pairOfSegment seg).name = seg.take i := by
      simp [Parser.pairOfSegment, h]
    have hvalue : (Parser.pairOfSegment seg).value = seg.drop (i + 1) := by
      simp [Parser.pairOfSegment, h]
    refine ⟨?_, Or.inr ?_⟩
    · intro hmem
      rw [hname] at hmem
      have := hpre _ hmem
      simp at this
    · rw [hname, hvalue]
      exact hsplit

theorem pairOfSegment_decoded_once (seg : Str) :
    (Parser.pairOfSegment seg).decodedName
        = Decoder.decodeParameter (Parser.pairOfSegment seg).name ∧
    (Parser.pairOfSegment seg).decodedValue
        = Decoder.decodeParameter (Parser.pairOfSegment seg).value := by
  match h : seg.findIdx? (· = ('=')) with
  | none => simp [Parser.pairOfSegment, h]
  | some i => simp [Parser.pairOfSegment, h]

theorem decodeParameter_cases (s : Str) :
    (Decoder.decodeURIComponentOpt s = none → Decoder.decodeParameter s = s) ∧
    (∀ d, Decoder.decodeURIComponentOpt s = some d → Decoder.decodeParameter s = d) := by
  cases hs : s.isEmpty with
  | true =>
    have hnil : s = [] := List.isEmpty_iff.mp hs
    subst hnil
    have hval : Decoder.decodeURIComponentOpt ([] : Str) = some [] := by decide
    refine ⟨fun h => ?_, fun d hd => ?_⟩
    · rw [hval] at h
      exact Option.noConfusion h
    · rw [hval] at hd
      injection hd with hd
  | false =>
    refine ⟨fun h => ?_, fun d hd => ?_⟩
    · simp [Decoder.decodeParameter, hs, h]
    · simp [Decoder.decodeParameter, hs, hd]

/-- Claim C7: the Form Decoder yields one parameter per non-empty
`&`-segment in order of appearance; each segment splits at its first `=`
(the whole segment is the name and the value is empty when `=` is absent);
decoded fields are the percent-decoding of the raw fields computed once,
and a field whose percent-decoding is malformed keeps its pre-decode form
without aborting the parse. -/
theorem claim_C7_form_decoder :
    (∀ body : Str, Parser.parseUrlEncodedBody body
        = ((splitOnChar ('&') body).filter (fun seg => !seg.isEmpty)).map
            Parser.pairOfSegment) ∧
    (∀ seg : Str,
      (('=') ∉ (Parser.pairOfSegment seg).name) ∧
      (((Parser.pairOfSegment seg).name = seg ∧ (Parser.pairOfSegment seg).value = []) ∨
        seg = (Parser.pairOfSegment seg).name ++ ('=') :: (Parser.pairOfSegment seg).value) ∧
      (Parser.pairOfSegment seg).decodedName
          = Decoder.decodeParameter (Parser.pairOfSegment seg).name ∧
      (Parser.pairOfSegment seg).decodedValue
          = Decoder.decodeParameter (Parser.pairOfSegment seg).value) ∧
    (∀ s : Str, Decoder.decodeURIComponentOpt s = none → Decoder.decodeParameter s = s) ∧
    (∀ s d : Str, Decoder.decodeURIComponentOpt s = some d →
        Decoder.decodeParameter s = d) := by
  refine ⟨fun body => ?_,
    fun seg => ⟨(pairOfSegment_name_value seg).1, (pairOfSegment_name_value seg).2,
      (pairOfSegment_decoded_once seg).1, (pairOfSegment_decoded_once seg).2⟩,
    fun s => (decodeParameter_cases s).1,
    fun s => (decodeParameter_cases s).2⟩
  cases hb : body.isEmpty with
  | true =>
    have hnil : body = [] := List.isEmpty_iff.mp hb
    subst hnil
    decide
  | false =>
    simp [Parser.parseUrlEncodedBody, hb, parseLoop_eq_filter_map]

/-- Witness for C7: a malformed escape is kept verbatim, a well-formed
escape decodes, and a concrete body parses segment-wise. -/
theorem claim_C7_witness :
    Decoder.decodeParameter (str "test%ZZinvalid") = str "test%ZZinvalid" ∧
    Decoder.decodeParameter (str "hello%20world") = str "hello world" ∧
    Parser.parseUrlEncodedBody (str "key1&key2=value2&&key3")
      = ((splitOnChar ('&') (str "key1&key2=value2&&key3")).filter
          (fun seg => !seg.isEmpty)).map Parser.pairOfSegment :=
  ⟨claim_C7_form_decoder.2.2.1 _ (by decide),
    claim_C7_form_decoder.2.2.2 _ _ (by decide),
    claim_C7_form_decoder.1 _⟩

namespace Detector

theorem detStep_hasStandardJsf (st : DetState) (p : ParsedParameter) :
    (detStep st p).hasStandardJsf = (st.hasStandardJsf || prefB p) := by
  cases hp : prefB p <;> cases hs : subB p <;> simp [detStep, hp, hs]

theorem detStep_hasAjax (st : DetState) (p : ParsedParameter) :
    (detStep st p).hasAjax
      = (st.hasAjax || (prefB p && (p.decodedName == str "javax.faces.partial.ajax"))) := by
  cases hp : prefB p <;> cases hs : subB p <;>
    cases ha : (p.decodedName == str "javax.faces.partial.ajax") <;>
      simp [detStep, hp, hs, ha]

theorem detStep_hasViewState (st : DetState) (p : ParsedParameter) :
    (detStep st p).hasViewState
      = (st.hasViewState || (prefB p && (p.decodedName == str "javax.faces.ViewState"))) := by
  cases hp : prefB p <;> cases hs : subB p <;>
    cases ha : (p.decodedName == str "javax.faces.ViewState") <;>
      simp [detStep, hp, hs, ha]

theorem detStep_versionFeatures (st : DetState) (p : ParsedParameter) :
    (detStep st p).versionFeatures = versionScan p.decodedName st.versionFeatures := by
  cases hp : prefB p <;> cases hs : subB p <;> simp [detStep, hp, hs]

theorem detStep_indicators (st : DetState) (p : ParsedParameter) :
    (detStep st p).indicators
      = st.indicators ++
          ((if prefB p then [str "Standard JSF parameter: " ++ p.decodedName] else []) ++
            (if subB p then [str "Form submission marker: " ++ p.decodedName] else [])) := by
  cases hp : prefB p <;> cases hs : subB p <;> simp [detStep, hp, hs]

end Detector

namespace Detector

theorem versionFold_append (n : Str) (table : List (Str × Str)) (vf : List Str) :
    ∃ t, versionFold n table vf = vf ++ t := by
  induction table generalizing vf with
  | nil => exact ⟨[], by simp [versionFold]⟩
  | cons e es ih =>
    rw [versionFold]
    cases hc : (n == e.1 && !(vf.contains e.2)) with
    | false =>
      rw [if_neg Bool.false_ne_true]
      exact ih vf
    | true =>
      rw [if_pos rfl]
      obtain ⟨t, ht⟩ := ih (vf ++ [e.2])
      exact ⟨e.2 :: t, by simpa [List.append_assoc] using ht⟩

theorem versionFold_ne (n : Str) (table : List (Str × Str)) (vf : List Str) :
    versionFold n table vf ≠ [] ↔
      (vf ≠ [] ∨ table.any (fun e => n == e.1) = true) := by
  induction table generalizing vf with
  | nil => simp [versionFold]
  | cons e es ih =>
    rw [versionFold]
    cases hn : (n == e.1) with
    | false =>
      simp only [Bool.false_and]
      rw [if_neg Bool.false_ne_true, ih]
      simp [List.any_cons, hn]
    | true =>
      cases hct : vf.contains e.2 with
      | true =>
        have hvf : vf ≠ [] := by
          intro h
          rw [h] at hct
          simp at hct
        simp only [Bool.true_and, Bool.not_true]
        rw [if_neg Bool.false_ne_true, ih]
        simp [List.any_cons, hn, hvf]
      | false =>
        simp only [Bool.true_and, Bool.not_false]
        rw [if_pos trivial]
        obtain ⟨t, ht⟩ := versionFold_append n es (vf ++ [e.2])
        rw [ht]
        simp [List.any_cons, hn]

theorem detLoop_hasStandardJsf (ps : List ParsedParameter) (st : DetState) :
    (detLoop ps st).hasStandardJsf = (st.hasStandardJsf || ps.any prefB) := by
  induction ps generalizing st with
  | nil => simp [detLoop]
  | cons p ps ih =>
    simp [detLoop, ih, detStep_hasStandardJsf, List.any_cons, Bool.or_assoc]

theorem detLoop_hasAjax (ps : List ParsedParameter) (st : DetState) :
    (detLoop ps st).hasAjax
      = (st.hasAjax ||
          ps.any (fun p => prefB p && (p.decodedName == str "javax.faces.partial.ajax"))) := by
  induction ps generalizing st with
  | nil => simp [detLoop]
  | cons p ps ih =>
    simp [detLoop, ih, detStep_hasAjax, List.any_cons, Bool.or_assoc]

theorem detLoop_hasViewState (ps : List ParsedParameter) (st : DetState) :
    (detLoop ps st).hasViewState
      = (st.hasViewState ||
          ps.any (fun p => prefB p && (p.decodedName == str "javax.faces.ViewState"))) := by
  induction ps generalizing st with
  | nil => simp [detLoop]
  | cons p ps ih =>
    simp [detLoop, ih, detStep_hasViewState, List.any_cons, Bool.or_assoc]

theorem detLoop_versionFeatures_ne (ps : List ParsedParameter) (st : DetState) :
    (detLoop ps st).versionFeatures ≠ [] ↔
      (st.versionFeatures ≠ [] ∨ ∃ p ∈ ps, verB p = true) := by
  induction ps generalizing st with
  | nil => simp [detLoop]
  | cons p ps ih =>
    rw [detLoop, ih, detStep_versionFeatures, versionScan, versionFold_ne]
    constructor
    · rintro ((h | h) | ⟨q, hq, hdet⟩)
      · exact Or.inl h
      · exact Or.inr ⟨p, List.mem_cons_self p ps, h⟩
      · exact Or.inr ⟨q, List.mem_cons_of_mem p hq, hdet⟩
    · rintro (h | ⟨q, hq, hdet⟩)
      · exact Or.inl (Or.inl h)
      · rcases List.mem_cons.mp hq with rfl | hq
        · exact Or.inl (Or.inr hdet)
        · exact Or.inr ⟨q, hq, hdet⟩

theorem detLoop_indicators_ne (ps : List ParsedParameter) (st : DetState) :
    (detLoop ps st).indicators ≠ [] ↔
      (st.indicators ≠ [] ∨ ∃ p ∈ ps, (prefB p || subB p) = true) := by
  induction ps generalizing st with
  | nil => simp [detLoop]
  | cons p ps ih =>
    rw [detLoop, ih]
    have hstep : (detStep st p).indicators ≠ [] ↔
        (st.indicators ≠ [] ∨ (prefB p || subB p) = true) := by
      rw [detStep_indicators]
      cases hp : prefB p <;> cases hs : subB p <;> simp
    rw [hstep]
    constructor
    · rintro ((h | h) | ⟨q, hq, hdet⟩)
      · exact Or.inl h
      · exact Or.inr ⟨p, List.mem_cons_self p ps, h⟩
      · exact Or.inr ⟨q, List.mem_cons_of_mem p hq, hdet⟩
    · rintro (h | ⟨q, hq, hdet⟩)
      · exact Or.inl (Or.inl h)
      · rcases List.mem_cons.mp hq with rfl | hq
        · exact Or.inl (Or.inr hdet)
        · exact Or.inr ⟨q, hq, hdet⟩

end Detector

namespace Annotations

theorem detectImplementation_eq_none_iff (names : List Str) :
    detectImplementation names = none ↔ ∀ n ∈ names, implLookup n = none := by
  induction names with
  | nil => simp [detectImplementation]
  | cons n rest ih =>
    cases hl : implLookup n with
    | none => simp [detectImplementation, hl, ih]
    | some v => simp [detectImplementation, hl]

end Annotations

namespace Detector

theorem detFinish_isJsf_iff (ps : List ParsedParameter) :
    (detFinish ps).isJsf = true ↔ (detFinish ps).indicators ≠ [] := by
  simp only [detFinish, decide_eq_true_eq]
  exact List.length_pos

theorem detFinish_ne_iff (ps : List ParsedParameter) :
    (detFinish ps).indicators ≠ [] ↔
      ((detLoop ps ⟨[], false, false, false, []⟩).indicators ≠ [] ∨
        (Annotations.detectImplementation (ps.map (·.decodedName))).isSome = true ∨
        (detLoop ps ⟨[], false, false, false, []⟩).versionFeatures ≠ [] ∨
        (detLoop ps ⟨[], false, false, false, []⟩).hasAjax = true ∨
        (detLoop ps ⟨[], false, false, false, []⟩).hasViewState = true) := by
  simp only [detFinish]
  cases himpl : Annotations.detectImplementation (ps.map (·.decodedName)) <;>
    cases hvf : (detLoop ps ⟨[], false, false, false, []⟩).versionFeatures <;>
      cases haj : (detLoop ps ⟨[], false, false, false, []⟩).hasAjax <;>
        cases hvs : (detLoop ps ⟨[], false, false, false, []⟩).hasViewState <;>
          simp [himpl, hvf, haj, hvs]

theorem detFinish_confidence_eq (ps : List ParsedParameter) :
    (detFinish ps).confidence
      = (if (detFinish ps).isJsf
          then (if ps.any prefB then Confidence.high else .medium)
          else .low) := by
  simp only [detFinish, detLoop_hasStandardJsf, Bool.false_or]

end Detector

namespace Detector

theorem detectImpl_isSome_iff (ps : List ParsedParameter) :
    (Annotations.detectImplementation (ps.map (·.decodedName))).isSome = true ↔
      ∃ p ∈ ps, implB p = true := by
  constructor
  · intro h
    by_contra hno
    push_neg at hno
    have hnone : Annotations.detectImplementation (ps.map (·.decodedName)) = none := by
      apply (Annotations.detectImplementation_eq_none_iff _).mpr
      intro n hn
      obtain ⟨p, hp, rfl⟩ := List.mem_map.mp hn
      have hb := hno p hp
      rw [implB] at hb
      cases hl : Annotations.implLookup p.decodedName with
      | none => rfl
      | some v =>
        rw [hl] at hb
        simp at hb
    rw [hnone] at h
    simp at h
  · rintro ⟨p, hp, hb⟩
    cases h : Annotations.detectImplementation (ps.map (·.decodedName)) with
    | some v => rfl
    | none =>
      have := (Annotations.detectImplementation_eq_none_iff _).mp h p.decodedName
        (List.mem_map.mpr ⟨p, hp, rfl⟩)
      rw [implB, this] at hb
      simp at hb

theorem detFinish_isJsf_exists (ps : List ParsedParameter) :
    (detFinish ps).isJsf = true ↔ ∃ p ∈ ps, detB p = true := by
  rw [detFinish_isJsf_iff, detFinish_ne_iff, detLoop_indicators_ne,
    detLoop_versionFeatures_ne, detLoop_hasAjax, detLoop_hasViewState,
    detectImpl_isSome_iff]
  simp only [Bool.false_or, List.any_eq_true]
  constructor
  · rintro ((h | ⟨p, hp, hb⟩) | ⟨p, hp, hb⟩ | (h | ⟨p, hp, hb⟩) | ⟨p, hp, hb⟩ | ⟨p, hp, hb⟩)
    · simp at h
    · refine ⟨p, hp, ?_⟩
      rcases (by simpa using hb : prefB p = true ∨ subB p = true) with h | h <;>
        simp [detB, h]
    · exact ⟨p, hp, by simp [detB, hb]⟩
    · simp at h
    · exact ⟨p, hp, by simp [detB, hb]⟩
    · have hb' : prefB p = true ∧ p.decodedName = str "javax.faces.partial.ajax" := by
        simpa using hb
      exact ⟨p, hp, by simp [detB, hb'.1]⟩
    · have hb' : prefB p = true ∧ p.decodedName = str "javax.faces.ViewState" := by
        simpa using hb
      exact ⟨p, hp, by simp [detB, hb'.1]⟩
  · rintro ⟨p, hp, hb⟩
    have hb' : ((prefB p = true ∨ subB p = true) ∨ implB p = true) ∨ verB p = true := by
      simpa [detB, Bool.or_eq_true] using hb
    rcases hb' with ((hb | hb) | hb) | hb
    · exact Or.inl (Or.inr ⟨p, hp, by simp [hb]⟩)
    · exact Or.inl (Or.inr ⟨p, hp, by simp [hb]⟩)
    · exact Or.inr (Or.inl ⟨p, hp, hb⟩)
    · exact Or.inr (Or.inr (Or.inl (Or.inr ⟨p, hp, hb⟩)))

theorem detFinish_confidence_high (ps : List ParsedParameter) :
    (detFinish ps).confidence = .high ↔ ∃ p ∈ ps, prefB p = true := by
  rw [detFinish_confidence_eq]
  cases hstd : ps.any prefB with
  | true =>
    have hjsf : (detFinish ps).isJsf = true := by
      rw [detFinish_isJsf_exists]
      obtain ⟨p, hp, hb⟩ := List.any_eq_true.mp hstd
      exact ⟨p, hp, by simp [detB, hb]⟩
    simp [hjsf, List.any_eq_true.mp hstd]
  | false =>
    have hno : ¬∃ p ∈ ps, prefB p = true := by
      rintro ⟨p, hp, hb⟩
      have := List.any_eq_true.mpr ⟨p, hp, hb⟩
      rw [hstd] at this
      simp at this
    cases hjsf : (detFinish ps).isJsf <;> simp [hjsf, hno]

end Detector

/-- Claim C8: every detection result satisfies
`isDetected == (indicators.length > 0)`. -/
theorem claim_C8_isDetected_iff_indicators (raw : Str) :
    (Detector.detectJsf raw).isJsf = true ↔ (Detector.detectJsf raw).indicators ≠ [] := by
  cases hr : raw.isEmpty with
  | true => simp [Detector.detectJsf, hr, Detector.negativeResult]
  | false =>
    cases hp : (Parser.parseJsfBody raw).parameters.isEmpty with
    | true => simp [Detector.detectJsf, hr, hp, Detector.negativeResult]
    | false =>
      simpa [Detector.detectJsf, hr, hp] using
        Detector.detFinish_isJsf_iff ((Parser.parseJsfBody raw).parameters)

/-- Claim C9: the Detector is a total function; the empty input, any
input whose body yields zero parameters, and the malformed input of the
source test suite all map to the negative low-confidence result. -/
theorem claim_C9_detector_degrades (raw : Str) :
    ((Parser.parseJsfBody raw).parameters = [] →
      Detector.detectJsf raw = Detector.negativeResult) ∧
    Detector.detectJsf [] = Detector.negativeResult ∧
    Detector.detectJsf (str "invalid request") = Detector.negativeResult := by
  refine ⟨fun h => ?_, by decide, by decide⟩
  cases hr : raw.isEmpty with
  | true => simp [Detector.detectJsf, hr]
  | false =>
    have hp : (Parser.parseJsfBody raw).parameters.isEmpty = true := by simp [h]
    simp [Detector.detectJsf, hr, hp]

/-- Witness for C9 at a body made of one separator, which parses to zero
parameters. -/
theorem claim_C9_witness :
    (Parser.parseJsfBody (str "&")).parameters = [] ∧
    Detector.detectJsf (str "&") = Detector.negativeResult :=
  ⟨by decide, (claim_C9_detector_degrades (str "&")).1 (by decide)⟩

/-- Counterexample to claim C1 as stated: the body `jffi=x` contains no
canonical framework parameter name and no name ending in `_SUBMIT`, yet
the Detector reports a detection with medium confidence (via the
version-indicator key `jffi`). -/
theorem claim_C1_counterexample :
    (Detector.detectJsf (str "jffi=x")).isJsf = true ∧
    (Detector.detectJsf (str "jffi=x")).confidence = .medium ∧
    ((Parser.parseJsfBody (str "jffi=x")).parameters.all
      (fun p => !(Detector.STANDARD_JSF_PARAMS.contains p.decodedName) &&
        !((str "_SUBMIT").isSuffixOf p.decodedName))) = true :=
  ⟨by decide, by decide, by decide⟩

/-- Claim C1 (amended): detection fires iff some decoded parameter name
has the `javax.faces.` prefix, ends in `_SUBMIT`, contains an
implementation-fingerprint substring, or equals a version-indicator key;
confidence is high iff a `javax.faces.`-prefixed name is present, medium
iff detection fired only through the other paths, low otherwise. -/
theorem claim_C1_detection_characterization (raw : Str) :
    ((Detector.detectJsf raw).isJsf = true ↔
      ∃ p ∈ (Parser.parseJsfBody raw).parameters, Detector.detB p = true) ∧
    ((Detector.detectJsf raw).confidence = .high ↔
      ∃ p ∈ (Parser.parseJsfBody raw).parameters, Detector.prefB p = true) ∧
    ((Detector.detectJsf raw).confidence = .medium ↔
      ((∃ p ∈ (Parser.parseJsfBody raw).parameters, Detector.detB p = true) ∧
        ¬∃ p ∈ (Parser.parseJsfBody raw).parameters, Detector.prefB p = true)) ∧
    ((Detector.detectJsf raw).confidence = .low ↔
      ¬∃ p ∈ (Parser.parseJsfBody raw).parameters, Detector.detB p = true) := by
  cases hr : raw.isEmpty with
  | true =>
    have hraw : raw = [] := List.isEmpty_iff.mp hr
    subst hraw
    have hps : (Parser.parseJsfBody ([] : Str)).parameters = [] := rfl
    simp [Detector.detectJsf, hps, Detector.negativeResult]
  | false =>
    cases hp : (Parser.parseJsfBody raw).parameters.isEmpty with
    | true =>
      have hps := List.isEmpty_iff.mp hp
      simp [Detector.detectJsf, hr, hp, hps, Detector.negativeResult]
    | false =>
      have hdj : Detector.detectJsf raw
          = Detector.detFinish (Parser.parseJsfBody raw).parameters := by
        simp [Detector.detectJsf, hr, hp]
      rw [hdj]
      have hjsf := Detector.detFinish_isJsf_exists (Parser.parseJsfBody raw).parameters
      have hhigh := Detector.detFinish_confidence_high (Parser.parseJsfBody raw).parameters
      have hconf := Detector.detFinish_confidence_eq (Parser.parseJsfBody raw).parameters
      refine ⟨hjsf, hhigh, ?_, ?_⟩
      · rw [hconf]
        cases hj : (Detector.detFinish (Parser.parseJsfBody raw).parameters).isJsf with
        | false =>
          have hnodet : ¬∃ p ∈ (Parser.parseJsfBody raw).parameters,
              Detector.detB p = true := by
            rw [← hjsf, hj]
            simp
          simp [hnodet]
        | true =>
          cases ha : (Parser.parseJsfBody raw).parameters.any Detector.prefB with
          | true =>
            have hpref : ∃ p ∈ (Parser.parseJsfBody raw).parameters,
                Detector.prefB p = true := List.any_eq_true.mp ha
            simp [hpref]
          | false =>
            have hnopref : ¬∃ p ∈ (Parser.parseJsfBody raw).parameters,
                Detector.prefB p = true := by
              rintro ⟨p, hmem, hb⟩
              have := List.any_eq_true.mpr ⟨p, hmem, hb⟩
              rw [ha] at this
              simp at this
            have hdet : ∃ p ∈ (Parser.parseJsfBody raw).parameters,
                Detector.detB p = true := hjsf.mp hj
            simp [hnopref, hdet]
      · rw [hconf]
        cases hj : (Detector.detFinish (Parser.parseJsfBody raw).parameters).isJsf with
        | false =>
          have hnodet : ¬∃ p ∈ (Parser.parseJsfBody raw).parameters,
              Detector.detB p = true := by
            rw [← hjsf, hj]
            simp
          simp [hnodet]
        | true =>
          have hdet : ∃ p ∈ (Parser.parseJsfBody raw).parameters,
              Detector.detB p = true := hjsf.mp hj
          cases ha : (Parser.parseJsfBody raw).parameters.any Detector.prefB <;>
            simp [ha, hdet]

/-- Witness for C1 (amended) at the PrimeFaces fingerprint body: detection
fires with medium confidence through the fingerprint path only. -/
theorem claim_C1_witness :
    (Detector.detectJsf (str "org.primefaces.x=1")).isJsf = true ∧
    (Detector.detectJsf (str "org.primefaces.x=1")).confidence = .medium :=
  ⟨(claim_C1_detection_characterization (str "org.primefaces.x=1")).1.mpr
      (by decide),
    ((claim_C1_detection_characterization (str "org.primefaces.x=1")).2.2.1).mpr
      (by decide)⟩

/-- Claim C10: the empty view-state value yields encoding `unknown` with
null decoded content and exactly the one empty-or-invalid warning, and
the `encrypted` classification applies exactly to the non-empty values
that fail the base64 test. -/
theorem claim_C10_empty_and_encrypted (v : Str) :
    Viewstate.analyzeViewState []
      = { encoding := .unknown, decodedContent := none, isSerializedJava := false,
          warnings := [str "ViewState value is empty or invalid"] } ∧
    ((Viewstate.analyzeViewState v).encoding = .encrypted ↔
      (v ≠ [] ∧ Viewstate.isBase64 v = false)) := by
  refine ⟨rfl, ?_⟩
  cases v with
  | nil => simp [Viewstate.analyzeViewState]
  | cons c t =>
    cases hb : Viewstate.isBase64 (c :: t) with
    | true =>
      cases hat : Viewstate.atob (c :: t) with
      | some bytes =>
        cases hj : Viewstate.detectSerializedJava bytes with
        | true => simp [Viewstate.analyzeViewState, hb, hat, hj]
        | false => simp [Viewstate.analyzeViewState, hb, hat, hj]
      | none => simp [Viewstate.analyzeViewState, hb, hat]
    | false =>
      simp [Viewstate.analyzeViewState, hb]

/-- Witness for C10: a short non-base64-shaped value is classified
encrypted. -/
theorem claim_C10_witness :
    (Viewstate.analyzeViewState (str "abc123")).encoding = .encrypted :=
  (claim_C10_empty_and_encrypted (str "abc123")).2.mpr ⟨by decide, by decide⟩

namespace Viewstate

theorem takeWhile_replicate_true {p : Char → Bool} {a : Char} (h : p a = true) (n : Nat) :
    (List.replicate n a).takeWhile p = List.replicate n a := by
  induction n with
  | zero => rfl
  | succ m ih => simp [List.replicate_succ, List.takeWhile_cons, h, ih]

theorem filter_replicate_true {p : Char → Bool} {a : Char} (h : p a = true) (n : Nat) :
    (List.replicate n a).filter p = List.replicate n a := by
  induction n with
  | zero => rfl
  | succ m ih => simp [List.replicate_succ, List.filter_cons, h, ih]

theorem seqOpts_replicate_some (v : Nat) (n : Nat) :
    seqOpts (List.replicate n (some v)) = some (List.replicate n v) := by
  induction n with
  | zero => rfl
  | succ m ih => simp [List.replicate_succ, seqOpts, ih]

theorem b64Quads_replicate_zero (k : Nat) :
    b64Quads (List.replicate (4 * k) 0) = List.replicate (3 * k) 0 := by
  induction k with
  | zero => rfl
  | succ m ih =>
    have h4 : 4 * (m + 1) = 4 * m + 1 + 1 + 1 + 1 := by ring
    have h3 : 3 * (m + 1) = 3 * m + 1 + 1 + 1 := by ring
    rw [h4, h3]
    simp [List.replicate_succ, b64Quads, ih]

theorem not_suffix_replicateA (n : Nat) (l : Str) (hl : ('=') ∈ l) :
    List.isSuffixOf l (List.replicate n ('A')) = false := by
  cases h : List.isSuffixOf l (List.replicate n ('A')) with
  | false => rfl
  | true =>
    obtain ⟨t, ht⟩ := List.isSuffixOf_iff_suffix.mp h
    have hmem : ('=') ∈ List.replicate n ('A') :=
      ht ▸ List.mem_append.mpr (Or.inr hl)
    have := (List.mem_replicate.mp hmem).2
    simp at this

theorem stripPad_replicateA (n : Nat) :
    stripPad (List.replicate n ('A')) = List.replicate n ('A') := by
  have h2 := not_suffix_replicateA n (str "==") (by decide)
  have h1 := not_suffix_replicateA n (str "=") (by decide)
  unfold stripPad
  split <;> simp [h2, h1]

theorem atob_replicateA (k : Nat) :
    atob (List.replicate (4 * k) ('A')) = some (List.replicate (3 * k) 0) := by
  unfold atob
  rw [filter_replicate_true (by decide), stripPad_replicateA]
  have hmod : ¬((List.replicate (4 * k) ('A')).length % 4 = 1) := by
    simp [List.length_replicate, Nat.mul_mod_right]
  rw [if_neg hmod, List.map_replicate,
    show b64Val ('A') = some 0 from by decide,
    seqOpts_replicate_some]
  simp [b64Quads_replicate_zero]

theorem isBase64_replicateA (k : Nat) (hk : 0 < k) :
    isBase64 (List.replicate (4 * k) ('A')) = true := by
  have hne : (List.replicate (4 * k) ('A')).isEmpty = false := by
    simp [List.isEmpty_iff, List.replicate_eq_nil_iff]
    omega
  have hshape : base64Shape (List.replicate (4 * k) ('A')) = true := by
    unfold base64Shape
    rw [takeWhile_replicate_true (by decide)]
    simp [List.length_replicate, List.drop_replicate]
  have hmod : (List.replicate (4 * k) ('A')).length % 4 = 0 := by
    simp [List.length_replicate, Nat.mul_mod_right]
  unfold isBase64
  rw [hne, if_neg Bool.false_ne_true, hshape]
  simp only [Bool.not_true, if_neg Bool.false_ne_true]
  rw [if_neg (by simp [hmod]), atob_replicateA]
  simp [List.length_replicate]
  omega

end Viewstate

/-- Counterexample to claim C2 as stated: a 15,000-character base64
value exceeds the 10,000 threshold, yet the View-State Analyzer invoked
by the Categorizer returns an empty warnings list and an encoding other
than base64. -/
theorem claim_C2_counterexample :
    (List.replicate 15000 ('A')).length > 10000 ∧
    Viewstate.isBase64 (List.replicate 15000 ('A')) = true ∧
    (Categorizer.analyzeViewState (List.replicate 15000 ('A'))).warnings = [] ∧
    (Categorizer.analyzeViewState (List.replicate 15000 ('A'))).encoding ≠ .base64 := by
  refine ⟨?_, ?_, rfl, ?_⟩
  · simp only [List.length_replicate]
    norm_num
  · have h := Viewstate.isBase64_replicateA 3750 (by norm_num)
    rw [show (4 * 3750 : Nat) = 15000 from by norm_num] at h
    exact h
  · intro h
    exact absurd h (by unfold Categorizer.analyzeViewState; simp)

/-- Claim C2 (amended): the analyzer the Categorizer invokes is a
placeholder returning encoding `unknown`, null content and no warnings
for every value, so no size warning is appended there; the large-size
performance warning for values longer than 10,000 characters is produced
by the Value Explainer's view-state analysis, as its `warning` field. -/
theorem claim_C2_size_warning_amended :
    (∀ v : Str, Categorizer.analyzeViewState v
      = { encoding := .unknown, decodedContent := none, isSerializedJava := false,
          warnings := [] }) ∧
    (∀ v : Str, v.length > 10000 →
      (ValueAnalyzer.analyzeViewState v).warning
        = some (str "Large ViewState detected - may impact performance and bandwidth")) := by
  refine ⟨fun v => rfl, fun v h => ?_⟩
  simp [ValueAnalyzer.analyzeViewState, h]

/-- Witness for C2 (amended) at a value of 10,001 characters. -/
theorem claim_C2_witness :
    (List.replicate 10001 ('a')).length > 10000 ∧
    (ValueAnalyzer.analyzeViewState (List.replicate 10001 ('a'))).warning
      = some (str "Large ViewState detected - may impact performance and bandwidth") :=
  ⟨by rw [List.length_replicate]; norm_num,
    claim_C2_size_warning_amended.2 _ (by rw [List.length_replicate]; norm_num)⟩

/-- Claim C3, evaluated at its failing input: for the body
`javax.faces.ViewState=abc123` detection is positive with high
confidence as the claim says, but the categorizer stores the view-state
parameter with encoding `unknown` and no warnings (its placeholder
analyzer), not `encrypted`; the standalone View-State Analyzer of
`viewstate.ts` does classify the value `encrypted`, which is the
documented intent. -/
theorem claim_C3_pipeline_eval :
    Detector.detectJsf (str "javax.faces.ViewState=abc123")
      = { isJsf := true, confidence := .high,
          indicators := [str "Standard JSF parameter: javax.faces.ViewState",
            str "Version features: JSF 1.0+ (Core framework)",
            str "Request type: Full Page Postback"] } ∧
    (Categorizer.categorizeParameters
        (Parser.parseJsfBody (str "javax.faces.ViewState=abc123")).parameters).viewState
      = some ⟨⟨str "javax.faces.ViewState", str "javax.faces.ViewState",
          str "abc123", str "abc123"⟩, .unknown, none, []⟩ ∧
    (Viewstate.analyzeViewState (str "abc123")).encoding = .encrypted :=
  ⟨by decide, by decide, by decide⟩

namespace Categorizer

theorem catLoop_spec (params : List ParsedParameter) (r : CategorizedParameters) :
    catLoop params r = {
      standardJsf := r.standardJsf ++ (params.filter stdCond).map mkStandard
      componentIds := r.componentIds ++ (params.filter cidCond).map mkComponentId
      viewState :=
        (match (params.filter vsCond).getLast? with
          | some q => some (mkViewState q)
          | none => r.viewState)
      formSubmit := r.formSubmit ++ (params.filter fsCond).map mkFormSubmit
      custom := r.custom ++ params.filter custCond } := by
  induction params generalizing r with
  | nil => simp [catLoop]
  | cons p ps ih =>
    rw [catLoop, ih]
    cases h1 : isViewStateParameter p.decodedName with
    | true =>
      cases hL : (ps.filter vsCond).getLast? <;>
        simp [catStep, categorizeParameter, h1, vsCond, stdCond, cidCond, fsCond,
          custCond, List.filter_cons, mkViewState, List.getLast?_cons, hL]
    | false =>
      cases h2 : isStandardJsfParameter p.decodedName with
      | true =>
        simp [catStep, categorizeParameter, h1, h2, vsCond, stdCond, cidCond,
          fsCond, custCond, List.filter_cons, mkStandard]
      | false =>
        cases h3 : isComponentIdParameter p.decodedName with
        | true =>
          simp [catStep, categorizeParameter, h1, h2, h3, vsCond, stdCond, cidCond,
            fsCond, custCond, List.filter_cons, mkComponentId]
        | false =>
          cases h4 : isFormSubmitParameter p.decodedName with
          | true =>
            simp [catStep, categorizeParameter, h1, h2, h3, h4, vsCond, stdCond,
              cidCond, fsCond, custCond, List.filter_cons, mkFormSubmit]
          | false =>
            simp [catStep, categorizeParameter, h1, h2, h3, h4, vsCond, stdCond,
              cidCond, fsCond, custCond, List.filter_cons]

theorem filter_five_length (params : List ParsedParameter) :
    (params.filter stdCond).length + (params.filter cidCond).length +
      (params.filter vsCond).length + (params.filter fsCond).length +
      (params.filter custCond).length = params.length := by
  induction params with
  | nil => rfl
  | cons p ps ih =>
    cases h1 : isViewStateParameter p.decodedName <;>
      cases h2 : isStandardJsfParameter p.decodedName <;>
        cases h3 : isComponentIdParameter p.decodedName <;>
          cases h4 : isFormSubmitParameter p.decodedName <;>
            simp [List.filter_cons, vsCond, stdCond, cidCond, fsCond, custCond,
              h1, h2, h3, h4] <;>
              omega

end Categorizer

/-- Claim C5: the categorizer partitions the input into the five
buckets by the first-match rules (each parameter is counted in exactly
one class), and the view-state slot holds exactly the analysis of the
last view-state-named parameter, if any. -/
theorem claim_C5_partition (params : List ParsedParameter) :
    (Categorizer.categorizeParameters params).standardJsf
        = (params.filter Categorizer.stdCond).map Categorizer.mkStandard ∧
    (Categorizer.categorizeParameters params).componentIds
        = (params.filter Categorizer.cidCond).map Categorizer.mkComponentId ∧
    (Categorizer.categorizeParameters params).viewState
        = ((params.filter Categorizer.vsCond).getLast?).map Categorizer.mkViewState ∧
    (Categorizer.categorizeParameters params).formSubmit
        = (params.filter Categorizer.fsCond).map Categorizer.mkFormSubmit ∧
    (Categorizer.categorizeParameters params).custom
        = params.filter Categorizer.custCond ∧
    (params.filter Categorizer.stdCond).length +
        (params.filter Categorizer.cidCond).length +
        (params.filter Categorizer.vsCond).length +
        (params.filter Categorizer.fsCond).length +
        (params.filter Categorizer.custCond).length = params.length := by
  have h := Categorizer.catLoop_spec params
    { standardJsf := [], componentIds := [], viewState := none,
      formSubmit := [], custom := [] }
  rw [Categorizer.categorizeParameters, h]
  refine ⟨by simp, by simp, ?_, by simp, by simp, Categorizer.filter_five_length params⟩
  cases hL : (params.filter Categorizer.vsCond).getLast? <;> simp [hL]
